import Mathlib

/-!
Shallow embedding of the inventory intelligence engine
(`analyticsEngine` module of the auto-inventory repository).

Conventions of the embedding:
* JavaScript numbers are modelled as exact rationals `ℚ`.
* Calendar timestamps (`Date` values and ISO date strings already parsed)
  are modelled as rational milliseconds since the Unix epoch; the wall
  clock `new Date()` is passed in explicitly as a parameter `now`.
  `setDate(now.getDate() - days)` is modelled as `now - days * msPerDay`.
* Optional numeric fields (`cost`, `price` on a product) are `Option ℚ`;
  the engine's `p.cost || 0` defaulting is `Option.getD 0`.
  The `Product`/`Sale` record types themselves live in a `types` module
  that is not part of the analysed sources; their field layout is
  modelled from the spec's data model (cost/price possibly absent,
  stock as a map from location id to quantity).
* `Array.prototype.sort` is stable (ECMAScript 2019) and its result with
  a numeric comparator is the unique stable reordering that is sorted by
  the comparator; it is modelled by `List.insertionSort`, which is stable
  and sorts by the given relation.
* `toLocaleString` / template-string formatting of numbers inside the
  human-readable insight strings is modelled by `toString`; the exception
  is the reorder insight, where the JavaScript expression
  `p.price - p.cost` is evaluated on possibly-`undefined` fields and
  produces `NaN`: that value is modelled as `Option ℚ` with `none`
  standing for NaN (see `reorderProfitProtect`).
-/

/-- Milliseconds per day, the divisor `1000 * 3600 * 24` used by the engine. -/
def msPerDay : ℚ := 86400000

/-- One entry of `sale.items`: `{id, quantity}`. -/
structure SaleItem where
  id : String
  quantity : ℚ
  deriving DecidableEq

/-- A recorded sale: `{date, locationId, items}`, the date already parsed to
a millisecond timestamp. -/
structure Sale where
  date : ℚ
  locationId : String
  items : List SaleItem
  deriving DecidableEq

/-- Modelled from the spec: the `Product` type declaration, which lives in a
`types` module that is not among the analysed sources, is reconstructed from
the spec's data model — a snapshot `id, name, cost, price, stock` where
`cost`/`price` may be absent and `stock` maps location identifiers to
quantities. -/
structure Product where
  id : String
  name : String
  cost : Option ℚ
  price : Option ℚ
  stock : List (String × ℚ)
  deriving DecidableEq

/-- The lookup `p.stock[locId] || 0`. -/
def stockAt (p : Product) (locId : String) : ℚ :=
  match p.stock.find? (fun kv => kv.1 == locId) with
  | some kv => kv.2
  | none => 0

/-- The aggregate `Object.values(p.stock).reduce((a, b) => a + b, 0)`. -/
def totalStock (p : Product) : ℚ :=
  (p.stock.map (fun kv => kv.2)).foldl (fun a b => a + b) 0

/-- The quantity of `productId` inside one sale:
`sale.items.find(i => i.id === productId)` contributing `item.quantity`
when found and `0` otherwise. -/
def matchedQty (productId : String) (s : Sale) : ℚ :=
  match s.items.find? (fun i => i.id == productId) with
  | some item => item.quantity
  | none => 0

/-- `calculateDemandVelocity`: average quantity of `productId` sold per day
over the `days`-day window ending at `now`; `0` for an empty history. -/
def calculateDemandVelocity (productId : String) (sales : List Sale)
    (now : ℚ) (days : ℚ) : ℚ :=
  if sales.isEmpty then 0
  else
    let pastDate := now - days * msPerDay
    let relevantSales := sales.filter (fun s =>
      decide (pastDate ≤ s.date ∧ s.date ≤ now))
    let totalQty := relevantSales.foldl (fun acc sale => acc + matchedQty productId sale) 0
    totalQty / days

/-- `calculateInventoryCover`: days of stock at the given velocity, with the
999 sentinel for stagnant stock. -/
def calculateInventoryCover (stockQuantity : ℚ) (velocity : ℚ) : ℚ :=
  if velocity ≤ 0 then (if 0 < stockQuantity then 999 else 0)
  else stockQuantity / velocity

/-- `calculateAgingScore`: days since the last movement, normalised by the
cover days (`coverDays === 0 ? 1 : coverDays` in the source). -/
def calculateAgingScore (lastMovementDate : Option ℚ) (coverDays : ℚ)
    (now : ℚ) : ℚ :=
  match lastMovementDate with
  | none => 0
  | some d =>
    let daysSinceMovement := (now - d) / msPerDay
    let safeCoverDays := if coverDays = 0 then 1 else coverDays
    daysSinceMovement / safeCoverDays

/-- `analyzeStockHealth`: health bucket from cover days. -/
def analyzeStockHealth (coverDays : ℚ) (optimalCover : ℚ)
    (safetyStockDays : ℚ) : String :=
  if 2 * optimalCover < coverDays then "Overstock"
  else if coverDays < safetyStockDays then "Stockout Risk"
  else "Healthy"

/-- `detectDeadStock`: the most recent sale date containing the product is
accumulated starting from `new Date(0)` (the epoch), and dead stock is flagged
when total stock is positive and the days since that date exceed the
threshold. -/
def detectDeadStock (product : Product) (sales : List Sale)
    (now : ℚ) (thresholdDays : ℚ) : Bool :=
  let lastSaleDate := sales.foldl (fun acc s =>
    if s.items.any (fun i => i.id == product.id) && decide (acc < s.date)
    then s.date else acc) 0
  let daysSinceLastSale := (now - lastSaleDate) / msPerDay
  decide (0 < totalStock product ∧ thresholdDays < daysSinceLastSale)

/-- The `type` field of a strategic insight. -/
inductive InsightType where
  | profitOptimization
  | riskMitigation
  | cashFlow
  | growth
  deriving DecidableEq

/-- The `actionType` field of a strategic insight. -/
inductive ActionType where
  | TRANSFER
  | LIQUIDATE
  | REORDER
  | PRICE_ADJUST
  deriving DecidableEq

/-- The `metadata` payload attached to each kind of insight. -/
inductive InsightMetadata where
  | transfer (productId : String) (fromLoc : String) (toLoc : String) (qty : ℤ)
  | deadstock (productId : String) (currentStock : ℚ)
  | reorder (productId : String) (reorderQty : ℤ)
  deriving DecidableEq

/-- The `StrategicInsight` record produced by the engine. -/
structure StrategicInsight where
  id : String
  type : InsightType
  problem : String
  impact : String
  recommendedAction : String
  roiImpact : String
  confidenceScore : ℚ
  actionType : ActionType
  metadata : Option InsightMetadata
  deriving DecidableEq

/-- The hardcoded candidate location set of the transfer finder. -/
def warehouseIds : List String :=
  ["warehouse-a", "store-downtown", "north-branch", "city-center-store"]

/-- Per-location statistics `{locId, stock, velocity, cover}` assembled by the
transfer finder. -/
structure LocStat where
  locId : String
  stock : ℚ
  velocity : ℚ
  cover : ℚ
  deriving DecidableEq

/-- The per-location stats map of `findTransferOpportunities` (its step 1). -/
def locStatsFor (p : Product) (sales : List Sale) (now : ℚ) : List LocStat :=
  warehouseIds.map (fun locId =>
    let stock := stockAt p locId
    let localSales := sales.filter (fun s => s.locationId == locId)
    let velocity := calculateDemandVelocity p.id localSales now 30
    let cover := calculateInventoryCover stock velocity
    ⟨locId, stock, velocity, cover⟩)

/-- The proposed transfer quantity
`Math.floor(Math.min(source.stock * 0.5, (30 - target.cover) * target.velocity))`. -/
def transferQtyFor (source target : LocStat) : ℤ :=
  Int.floor (min (source.stock * (0.5 : ℚ)) ((30 - target.cover) * target.velocity))

/-- The `estimatedGain = margin * transferQty` with `margin = price - cost`
after the `|| 0` defaulting of both fields. -/
def estimatedGain (p : Product) (transferQty : ℤ) : ℚ :=
  (p.price.getD 0 - p.cost.getD 0) * (transferQty : ℚ)

/-- The placeholder logistics model `transferCost = 50 + transferQty * 2`. -/
def transferCost (transferQty : ℤ) : ℚ :=
  50 + (transferQty : ℚ) * 2

/-- The insight record pushed for an accepted (source, target) transfer pair. -/
def mkTransferInsight (p : Product) (source target : LocStat)
    (transferQty : ℤ) : StrategicInsight where
  id := "transfer-" ++ p.id ++ "-" ++ source.locId ++ "-" ++ target.locId
  type := InsightType.profitOptimization
  problem := "Stock imbalance for " ++ p.name
  impact := "Potential missed sales in " ++ target.locId
  recommendedAction := "Transfer " ++ toString transferQty ++ " units from "
    ++ source.locId ++ " to " ++ target.locId
  roiImpact := "+₹" ++ toString (Int.floor (estimatedGain p transferQty - transferCost transferQty))
  confidenceScore := 0.9
  actionType := ActionType.TRANSFER
  metadata := some (InsightMetadata.transfer p.id source.locId target.locId transferQty)

/-- The body of the doubly nested source/target loop: an insight is produced
exactly when `source.stock > 10`, the floored quantity is positive and the
estimated gain strictly exceeds the transfer cost. -/
def transferCandidate (p : Product) (source target : LocStat) :
    Option StrategicInsight :=
  if 10 < source.stock then
    if 0 < transferQtyFor source target then
      if transferCost (transferQtyFor source target)
          < estimatedGain p (transferQtyFor source target) then
        some (mkTransferInsight p source target (transferQtyFor source target))
      else none
    else none
  else none

/-- All transfer insights pushed while processing one product: every
overstocked location (`cover > 60`) is matched against every starving one
(`cover < 10` and `velocity > 0.1`). -/
def transferInsightsFor (p : Product) (sales : List Sale) (now : ℚ) :
    List StrategicInsight :=
  let locStats := locStatsFor p sales now
  let overstocked := locStats.filter (fun l => decide (60 < l.cover))
  let starving := locStats.filter (fun l =>
    decide (l.cover < 10 ∧ (0.1 : ℚ) < l.velocity))
  (overstocked.map (fun source =>
    starving.filterMap (fun target => transferCandidate p source target))).flatten

/-- `findTransferOpportunities`: the transfer insights of all products, in
product order. -/
def findTransferOpportunities (products : List Product) (sales : List Sale)
    (now : ℚ) : List StrategicInsight :=
  (products.map (fun p => transferInsightsFor p sales now)).flatten

/-- The capital blocked in a dead product: `totalStock * (p.cost || 0)`. -/
def capitalBlocked (p : Product) : ℚ :=
  totalStock p * p.cost.getD 0

/-- The `Cash Flow` insight pushed for a flagged dead-stock product. -/
def mkDeadStockInsight (p : Product) : StrategicInsight where
  id := "deadstock-" ++ p.id
  type := InsightType.cashFlow
  problem := "Dead Stock: " ++ p.name
  impact := "₹" ++ toString (capitalBlocked p) ++ " capital blocked"
  recommendedAction := "Liquidate " ++ toString (totalStock p) ++ " units. Run clearance sale."
  roiImpact := "Recover ~₹" ++ toString (capitalBlocked p * (0.7 : ℚ))
  confidenceScore := 0.85
  actionType := ActionType.LIQUIDATE
  metadata := some (InsightMetadata.deadstock p.id (totalStock p))

/-- Step B of `generateStrategicInsights` for one product: a liquidation
insight when the product is dead stock and the blocked capital passes the
materiality threshold of 1000. -/
def deadStockInsightFor (p : Product) (sales : List Sale) (now : ℚ) :
    Option StrategicInsight :=
  if detectDeadStock p sales now 90 then
    if 1000 < capitalBlocked p then some (mkDeadStockInsight p) else none
  else none

/-- The value of the JavaScript expression
`overallDistVelocity * 14 * (p.price - p.cost)` inside the reorder insight:
the source reads `p.price` and `p.cost` directly, without the `|| 0`
defaulting, so an absent field makes the whole product `NaN` (modelled as
`none`). -/
def reorderProfitProtect (p : Product) (velocity : ℚ) : Option ℚ :=
  match p.price, p.cost with
  | some price, some cost => some (velocity * 14 * (price - cost))
  | _, _ => none

/-- Rendering of the reorder `roiImpact` string; a `NaN` value prints as
`NaN`, as `toLocaleString` does in JavaScript. -/
def reorderRoiString (v : Option ℚ) : String :=
  match v with
  | some q => "Protect ~₹" ++ toString q ++ " profit"
  | none => "Protect ~₹NaN profit"

/-- The `Risk Mitigation` insight pushed for a stockout-risk product. -/
def mkReorderInsight (p : Product) (overallDistVelocity overallCover : ℚ) :
    StrategicInsight where
  id := "reorder-" ++ p.id
  type := InsightType.riskMitigation
  problem := "Stockout Risk: " ++ p.name
  impact := "Only " ++ toString (Int.floor overallCover) ++ " days of stock left"
  recommendedAction := "Place urgent reorder for "
    ++ toString (Int.ceil (overallDistVelocity * 30)) ++ " units"
  roiImpact := reorderRoiString (reorderProfitProtect p overallDistVelocity)
  confidenceScore := 0.95
  actionType := ActionType.REORDER
  metadata := some (InsightMetadata.reorder p.id (Int.ceil (overallDistVelocity * 30)))

/-- Step C of `generateStrategicInsights` for one product: a reorder insight
when overall cover is under 14 days and overall velocity exceeds 0.5. -/
def reorderInsightFor (p : Product) (sales : List Sale) (now : ℚ) :
    Option StrategicInsight :=
  let overallDistVelocity := calculateDemandVelocity p.id sales now 30
  let overallCover := calculateInventoryCover (totalStock p) overallDistVelocity
  if overallCover < 14 ∧ (0.5 : ℚ) < overallDistVelocity then
    some (mkReorderInsight p overallDistVelocity overallCover)
  else none

/-- The fixed category priority `{Risk Mitigation: 3, Profit Optimization: 2,
Cash Flow: 1, Growth: 0}`. -/
def priorityMap : InsightType → ℕ
  | InsightType.riskMitigation => 3
  | InsightType.profitOptimization => 2
  | InsightType.cashFlow => 1
  | InsightType.growth => 0

/-- Ordering relation realised by the comparator
`(a, b) => priorityMap[b.type] - priorityMap[a.type]`: descending by
category priority. -/
def insightLE (a b : StrategicInsight) : Prop :=
  priorityMap b.type ≤ priorityMap a.type

instance : DecidableRel insightLE :=
  fun a b => Nat.decLe (priorityMap b.type) (priorityMap a.type)

instance : IsTotal StrategicInsight insightLE :=
  ⟨fun a b => Nat.le_total (priorityMap b.type) (priorityMap a.type)⟩

instance : IsTrans StrategicInsight insightLE :=
  ⟨fun _ _ _ h1 h2 => Nat.le_trans h2 h1⟩

/-- `generateStrategicInsights`: transfer, dead-stock and reorder insights are
collected in that order, stably sorted descending by category priority
(`Array.prototype.sort` is stable), and truncated to the first five. -/
def generateStrategicInsights (products : List Product) (sales : List Sale)
    (now : ℚ) : List StrategicInsight :=
  let transferInsights := findTransferOpportunities products sales now
  let deadStockInsights := products.filterMap (fun p => deadStockInsightFor p sales now)
  let reorderInsights := products.filterMap (fun p => reorderInsightFor p sales now)
  let insights := transferInsights ++ deadStockInsights ++ reorderInsights
  (List.insertionSort insightLE insights).take 5

/-- The `trend` classification of a product forecast. -/
inductive Trend where
  | highGrowth
  | stable
  | declining
  | freshlyNew
  deriving DecidableEq

/-- The `ProductForecast` record.  The 60-day daily history is keyed by
calendar day; the key `Math.floor(date / msPerDay)` models the day part of
`toISOString()`. -/
structure ProductForecast where
  productId : String
  name : String
  currentMonthlySales : ℚ
  previousMonthlySales : ℚ
  growthRate : ℚ
  trend : Trend
  forecastedSales : ℤ
  confidence : ℚ
  history : List (ℤ × ℚ)
  deriving DecidableEq

/-- Calendar-day key of a timestamp, modelling
`saleDate.toISOString().split('T')[0]`. -/
def dayKey (t : ℚ) : ℤ :=
  Int.floor (t / msPerDay)

/-- One update of the `dailyHistory` object:
`dailyHistory[dateStr] = (dailyHistory[dateStr] || 0) + item.quantity`,
with JavaScript object insertion order preserved. -/
def bumpDay (hist : List (ℤ × ℚ)) (day : ℤ) (qty : ℚ) : List (ℤ × ℚ) :=
  if hist.any (fun kv => kv.1 == day) then
    hist.map (fun kv => if kv.1 == day then (kv.1, kv.2 + qty) else kv)
  else hist ++ [(day, qty)]

/-- The per-sale accumulation step of the forecast generator: bucket the
matched quantity into the daily history when the sale is at most 60 days
old, and into the current (≤ 30 days) or previous (30–60 days) window. -/
def forecastStep (pid : String) (thirtyDaysAgo sixtyDaysAgo : ℚ)
    (st : ℚ × ℚ × List (ℤ × ℚ)) (s : Sale) : ℚ × ℚ × List (ℤ × ℚ) :=
  match s.items.find? (fun i => i.id == pid) with
  | none => st
  | some item =>
    let hist := if sixtyDaysAgo ≤ s.date then
        bumpDay st.2.2 (dayKey s.date) item.quantity
      else st.2.2
    if thirtyDaysAgo ≤ s.date then (st.1 + item.quantity, st.2.1, hist)
    else if sixtyDaysAgo ≤ s.date then (st.1, st.2.1 + item.quantity, hist)
    else (st.1, st.2.1, hist)

/-- The momentum factor per trend: High Growth ×1.2, Declining ×0.9,
Stable/New ×1.0. -/
def momentumFactor : Trend → ℚ
  | Trend.highGrowth => 1.2
  | Trend.declining => 0.9
  | _ => 1

/-- Ascending order on history entries, realised by the chart comparator
`(a, b) => new Date(a.date) - new Date(b.date)`. -/
def histLE (a b : ℤ × ℚ) : Prop := a.1 ≤ b.1

instance : DecidableRel histLE := fun a b => Int.decLe a.1 b.1

/-- The forecast computed for a single product. -/
def forecastFor (p : Product) (sales : List Sale) (now : ℚ) : ProductForecast :=
  let thirtyDaysAgo := now - 30 * msPerDay
  let sixtyDaysAgo := now - 60 * msPerDay
  let productSales := sales.filter (fun s => s.items.any (fun i => i.id == p.id))
  let acc := productSales.foldl (forecastStep p.id thirtyDaysAgo sixtyDaysAgo) (0, 0, [])
  let currentQty := acc.1
  let previousQty := acc.2.1
  let growthRate : ℚ :=
    if 0 < previousQty then ((currentQty - previousQty) / previousQty) * 100
    else if 0 < currentQty then 100
    else 0
  let trend : Trend :=
    if previousQty = 0 ∧ 0 < currentQty then Trend.freshlyNew
    else if 20 ≤ growthRate then Trend.highGrowth
    else if growthRate ≤ -20 then Trend.declining
    else Trend.stable
  { productId := p.id
    name := p.name
    currentMonthlySales := currentQty
    previousMonthlySales := previousQty
    growthRate := growthRate
    trend := trend
    forecastedSales := Int.ceil (currentQty * momentumFactor trend)
    confidence := 0.85
    history := List.insertionSort histLE acc.2.2 }

/-- Descending order on forecasts, realised by the final comparator
`(a, b) => b.forecastedSales - a.forecastedSales`. -/
def forecastLE (a b : ProductForecast) : Prop :=
  b.forecastedSales ≤ a.forecastedSales

instance : DecidableRel forecastLE :=
  fun a b => Int.decLe b.forecastedSales a.forecastedSales

instance : IsTotal ProductForecast forecastLE :=
  ⟨fun a b => Int.le_total b.forecastedSales a.forecastedSales⟩

instance : IsTrans ProductForecast forecastLE :=
  ⟨fun _ _ _ h1 h2 => Int.le_trans h2 h1⟩

/-- `generateProductForecasts`: one forecast per product, stably sorted
descending by forecasted volume. -/
def generateProductForecasts (products : List Product) (sales : List Sale)
    (now : ℚ) : List ProductForecast :=
  List.insertionSort forecastLE (products.map (fun p => forecastFor p sales now))

/-! Concrete sample data used by the closed witness and counterexample
theorems below. -/

/-- A reference clock, 60 days after the epoch. -/
def nowW : ℚ := 60 * msPerDay

/-- Sample product: cheap to buy, dear to sell, piled up in `warehouse-a`
while `store-downtown` is starving. -/
def pW : Product :=
  ⟨"p1", "P1", some 2, some 10, [("warehouse-a", 100), ("store-downtown", 2)]⟩

/-- Sample sales history: fifteen units of `p1` sold downtown at `nowW`. -/
def salesW : List Sale :=
  [⟨nowW, "store-downtown", [⟨"p1", 15⟩]⟩]

/-- The transfer insight that `findTransferOpportunities [pW] salesW nowW`
emits. -/
def insightW : StrategicInsight :=
  mkTransferInsight pW ⟨"warehouse-a", 100, 0, 999⟩ ⟨"store-downtown", 2, 1/2, 4⟩ 13

/-- Sample product with absent `cost` and `price` fields. -/
def pC9 : Product := ⟨"c9", "C9", none, none, [("warehouse-a", 2)]⟩

/-- Sales history making `pC9` a stockout risk: thirty units sold at `nowW`
against a total stock of two. -/
def salesC9 : List Sale := [⟨nowW, "warehouse-a", [⟨"c9", 30⟩]⟩]

/-- Sample product last sold before the Unix epoch. -/
def pC5 : Product := ⟨"c5", "C5", some 3, some 5, [("warehouse-a", 1)]⟩

/-- A single sale of `pC5` dated 200 days before the epoch. -/
def salesC5 : List Sale := [⟨-(200 * msPerDay), "warehouse-a", [⟨"c5", 4⟩]⟩]

/-- A clock 50 days after the epoch, used with `pC5`. -/
def nowC5 : ℚ := 50 * msPerDay

/-- Sample never-sold product with stock on hand. -/
def pC5b : Product := ⟨"d1", "D1", some 2, some 3, [("warehouse-a", 5)]⟩

/-- A clock 100 days after the epoch, used with `pC5b`. -/
def nowC5b : ℚ := 100 * msPerDay

/-- The forecast of `pW` under `salesW`. -/
def fW : ProductForecast := forecastFor pW salesW nowW

/-- First element of an insight list (a growth/price-adjust placeholder for
the empty list, which the engine never emits). -/
def firstInsight : List StrategicInsight → StrategicInsight
  | [] => ⟨"", InsightType.growth, "", "", "", "", 0, ActionType.PRICE_ADJUST, none⟩
  | i :: _ => i

/-- The insight that `generateStrategicInsights [pC9] salesC9 nowW` emits. -/
def insightC10 : StrategicInsight :=
  firstInsight (generateStrategicInsights [pC9] salesC9 nowW)

/-- Claim-side last-sale date, following the claim's wording for C5: the
date of the most recent sale containing the product, defaulting to the epoch
only when the product was never sold.  Compare `detectDeadStock`, which also
clamps pre-epoch sale dates. -/
def specLastSaleDate (p : Product) (sales : List Sale) : ℚ :=
  match ((sales.filter (fun s => s.items.any (fun i => i.id == p.id))).map
      (fun s => s.date)).max? with
  | some d => d
  | none => 0

/-- The last-sale date the code actually computes: the maximum of the epoch
and all matching sale dates. -/
def lastSaleDateClamped (p : Product) (sales : List Sale) : ℚ :=
  ((sales.filter (fun s => s.items.any (fun i => i.id == p.id))).map
    (fun s => s.date)).foldl max 0

/-! Claim C3: inventory cover. -/

/-- C3: for every stock quantity `stock ≥ 0` and every velocity,
`calculateInventoryCover` returns `0` when `velocity ≤ 0` and `stock = 0`,
the sentinel `999` when `velocity ≤ 0` and `stock > 0`, and exactly
`stock / velocity` when `velocity > 0`. -/
theorem c3_inventory_cover (stock velocity : ℚ) (hstock : 0 ≤ stock) :
    (velocity ≤ 0 → (stock = 0 → calculateInventoryCover stock velocity = 0) ∧
      (0 < stock → calculateInventoryCover stock velocity = 999)) ∧
    (0 < velocity → calculateInventoryCover stock velocity = stock / velocity) := by
  unfold calculateInventoryCover
  constructor
  · intro hv
    constructor
    · intro h0
      rw [if_pos hv, if_neg (by rw [h0]; exact lt_irrefl 0)]
    · intro h0
      rw [if_pos hv, if_pos h0]
  · intro hv
    rw [if_neg (not_le.mpr hv)]

/-- C3 witness: the theorem instantiated at `stock = 5`, `velocity = 0`. -/
theorem c3_inventory_cover_witness :
    (0 : ℚ) ≤ 5 ∧
    (((0 : ℚ) ≤ 0 → ((5 : ℚ) = 0 → calculateInventoryCover 5 0 = 0) ∧
        ((0 : ℚ) < 5 → calculateInventoryCover 5 0 = 999)) ∧
      ((0 : ℚ) < 0 → calculateInventoryCover 5 0 = 5 / 0)) :=
  ⟨by norm_num, c3_inventory_cover 5 0 (by norm_num)⟩

/-! Claim C4: aging score. -/

/-- C4 counterexample: at `coverDays = 1/2` with a movement exactly one day
old, the code returns `2`, while the claimed formula
`daysSince / max(coverDays, 1)` gives `1`. -/
theorem c4_aging_counterexample :
    calculateAgingScore (some 0) (1/2) msPerDay = 2 ∧
    ((msPerDay - 0) / msPerDay) / max ((1 : ℚ)/2) 1 = 1 ∧ (2 : ℚ) ≠ 1 := by
  refine ⟨by norm_num [calculateAgingScore, msPerDay], ?_, by norm_num⟩
  rw [max_eq_right (by norm_num : (1 : ℚ)/2 ≤ 1)]
  rw [sub_zero, div_self (by norm_num [msPerDay] : msPerDay ≠ 0), div_one]

/-- C4 amended: `calculateAgingScore` returns `0` when the last-movement date
is absent, and otherwise the days since the last movement divided by
`coverDays`, with the divisor replaced by `1` only when `coverDays` is
exactly `0` (not `max(coverDays, 1)`). -/
theorem c4_aging_amended (coverDays now : ℚ) :
    calculateAgingScore none coverDays now = 0 ∧
    ∀ t : ℚ, calculateAgingScore (some t) coverDays now =
      ((now - t) / msPerDay) / (if coverDays = 0 then 1 else coverDays) :=
  ⟨rfl, fun _ => rfl⟩

/-! Claim C8: demand velocity. -/

/-- Accumulating matched quantities with `foldl` equals the sum of the
mapped quantities. -/
lemma foldl_add_matchedQty (pid : String) (l : List Sale) (a : ℚ) :
    l.foldl (fun acc sale => acc + matchedQty pid sale) a
      = a + (l.map (matchedQty pid)).sum := by
  induction l generalizing a with
  | nil => simp
  | cons s t ih => simp [ih, add_assoc]

/-- C8: for every product identifier and every `days > 0`,
`calculateDemandVelocity` returns `0` on an empty sales list, and otherwise
the sum of matched quantities over sales dated within `[now - days, now]`
inclusive, divided by the full window length `days`. -/
theorem c8_demand_velocity (productId : String) (sales : List Sale)
    (now days : ℚ) (hdays : 0 < days) :
    calculateDemandVelocity productId [] now days = 0 ∧
    (sales ≠ [] → calculateDemandVelocity productId sales now days =
      ((sales.filter (fun s =>
          decide (now - days * msPerDay ≤ s.date ∧ s.date ≤ now))).map
        (matchedQty productId)).sum / days) := by
  refine ⟨rfl, fun hne => ?_⟩
  have h : sales.isEmpty = false := by
    rw [← Bool.not_eq_true, List.isEmpty_iff]
    exact hne
  simp only [calculateDemandVelocity, h, Bool.false_eq_true, if_false]
  rw [foldl_add_matchedQty, zero_add]

/-- C8 witness: the theorem instantiated at the sample sales history with a
30-day window. -/
theorem c8_demand_velocity_witness :
    (0 : ℚ) < 30 ∧
    (calculateDemandVelocity "p1" [] nowW 30 = 0 ∧
      (salesW ≠ [] → calculateDemandVelocity "p1" salesW nowW 30 =
        ((salesW.filter (fun s =>
            decide (nowW - 30 * msPerDay ≤ s.date ∧ s.date ≤ nowW))).map
          (matchedQty "p1")).sum / 30)) :=
  ⟨by norm_num, c8_demand_velocity "p1" salesW nowW 30 (by norm_num)⟩

lemma foldl_lastSale (pid : String) (l : List Sale) :
    ∀ a : ℚ, l.foldl (fun acc s =>
        if s.items.any (fun i => i.id == pid) && decide (acc < s.date)
        then s.date else acc) a
      = ((l.filter (fun s => s.items.any (fun i => i.id == pid))).map
          (fun s => s.date)).foldl max a := by
  induction l with
  | nil => intro a; rfl
  | cons s t ih =>
    intro a
    by_cases h : s.items.any (fun i => i.id == pid) = true
    · have hstep : (if (s.items.any (fun i => i.id == pid) && decide (a < s.date)) = true
          then s.date else a) = max a s.date := by
        rw [h, Bool.true_and]
        rcases lt_or_le a s.date with hlt | hle
        · rw [if_pos (by simpa using hlt), max_eq_right hlt.le]
        · rw [if_neg (by simpa using not_lt.mpr hle), max_eq_left hle]
      have hfil : List.filter (fun s => s.items.any (fun i => i.id == pid)) (s :: t)
          = s :: List.filter (fun s => s.items.any (fun i => i.id == pid)) t := by
        simp [List.filter_cons, h]
      simp only [List.foldl_cons]
      rw [hstep, hfil, List.map_cons, List.foldl_cons, ih]
    · have h' : s.items.any (fun i => i.id == pid) = false := by simpa using h
      have hstep : (if (s.items.any (fun i => i.id == pid) && decide (a < s.date)) = true
          then s.date else a) = a := by
        rw [h', Bool.false_and]
        simp
      have hfil : List.filter (fun s => s.items.any (fun i => i.id == pid)) (s :: t)
          = List.filter (fun s => s.items.any (fun i => i.id == pid)) t := by
        simp [List.filter_cons, h']
      simp only [List.foldl_cons]
      rw [hstep, hfil, ih]

theorem c5_dead_stock_amended (p : Product) (sales : List Sale)
    (now thresholdDays : ℚ) :
    detectDeadStock p sales now thresholdDays = true ↔
      (0 < totalStock p ∧
        thresholdDays < (now - lastSaleDateClamped p sales) / msPerDay) := by
  simp only [detectDeadStock, foldl_lastSale, decide_eq_true_eq, lastSaleDateClamped]

theorem c5_dead_stock_counterexample :
    detectDeadStock pC5 salesC5 nowC5 90 = false ∧
    (0 < totalStock pC5 ∧ 90 < (nowC5 - specLastSaleDate pC5 salesC5) / msPerDay) := by
  refine ⟨?_, ?_, ?_⟩
  · have hany : ([⟨"c5", (4 : ℚ)⟩] : List SaleItem).any (fun i => i.id == "c5") = true := rfl
    rw [detectDeadStock]
    norm_num [salesC5, pC5, nowC5, msPerDay, totalStock, hany, decide_eq_true_eq]
  · norm_num [totalStock, pC5]
  · have hd : specLastSaleDate pC5 salesC5 = -(200 * msPerDay) := rfl
    rw [hd]
    norm_num [nowC5, msPerDay]

theorem c5_dead_stock_amended_witness :
    detectDeadStock pC5b [] nowC5b 90 = true :=
  (c5_dead_stock_amended pC5b [] nowC5b 90).mpr
    ⟨by norm_num [totalStock, pC5b], by norm_num [lastSaleDateClamped, nowC5b, msPerDay]⟩

/-! Evaluation of the pipeline on the sample data, used by the closed
witness and counterexample theorems. -/

/-- Demand velocity of `p1` downtown under the sample history. -/
lemma velW_downtown : calculateDemandVelocity "p1" salesW nowW 30 = 1/2 := by
  have hm : matchedQty "p1" ⟨(5184000000 : ℚ), "store-downtown", [⟨"p1", 15⟩]⟩ = 15 := rfl
  rw [calculateDemandVelocity]
  norm_num [salesW, nowW, msPerDay, List.filter_cons, decide_eq_true_eq, hm]

/-- Per-location statistics of the sample product `pW`. -/
lemma locStatsW : locStatsFor pW salesW nowW =
    [⟨"warehouse-a", 100, 0, 999⟩, ⟨"store-downtown", 2, 1/2, 4⟩,
     ⟨"north-branch", 0, 0, 0⟩, ⟨"city-center-store", 0, 0, 0⟩] := by
  have e1 : stockAt pW "warehouse-a" = 100 := rfl
  have e2 : stockAt pW "store-downtown" = 2 := rfl
  have e3 : stockAt pW "north-branch" = 0 := rfl
  have e4 : stockAt pW "city-center-store" = 0 := rfl
  have f1 : salesW.filter (fun s => s.locationId == "warehouse-a") = [] := rfl
  have f2 : salesW.filter (fun s => s.locationId == "store-downtown") = salesW := rfl
  have f3 : salesW.filter (fun s => s.locationId == "north-branch") = [] := rfl
  have f4 : salesW.filter (fun s => s.locationId == "city-center-store") = [] := rfl
  have v0 : calculateDemandVelocity "p1" [] nowW 30 = 0 := rfl
  have hpid : pW.id = "p1" := rfl
  simp only [locStatsFor, warehouseIds, List.map_cons, List.map_nil, hpid,
    e1, e2, e3, e4, f1, f2, f3, f4, v0, velW_downtown]
  norm_num [calculateInventoryCover]

/-- The sample data emits exactly one transfer insight. -/
lemma evalTransferW : findTransferOpportunities [pW] salesW nowW = [insightW] := by
  have hcand : transferCandidate pW ⟨"warehouse-a", 100, 0, 999⟩ ⟨"store-downtown", 2, 1/2, 4⟩
      = some insightW := by
    norm_num [transferCandidate, transferQtyFor, estimatedGain, transferCost, insightW, pW]
  rw [findTransferOpportunities]
  simp only [List.map_cons, List.map_nil, List.flatten]
  rw [transferInsightsFor, locStatsW]
  norm_num [List.filter_cons, decide_eq_true_eq, List.filterMap, hcand]

/-- Overall demand velocity of the sample product `pC9`. -/
lemma velC9 : calculateDemandVelocity "c9" salesC9 nowW 30 = 1 := by
  have hm : matchedQty "c9" ⟨(5184000000 : ℚ), "warehouse-a", [⟨"c9", 30⟩]⟩ = 30 := rfl
  rw [calculateDemandVelocity]
  norm_num [salesC9, nowW, msPerDay, List.filter_cons, decide_eq_true_eq, hm]

/-- Per-location statistics of the sample product `pC9`. -/
lemma locStatsC9 : locStatsFor pC9 salesC9 nowW =
    [⟨"warehouse-a", 2, 1, 2⟩, ⟨"store-downtown", 0, 0, 0⟩,
     ⟨"north-branch", 0, 0, 0⟩, ⟨"city-center-store", 0, 0, 0⟩] := by
  have e1 : stockAt pC9 "warehouse-a" = 2 := rfl
  have e2 : stockAt pC9 "store-downtown" = 0 := rfl
  have e3 : stockAt pC9 "north-branch" = 0 := rfl
  have e4 : stockAt pC9 "city-center-store" = 0 := rfl
  have f1 : salesC9.filter (fun s => s.locationId == "warehouse-a") = salesC9 := rfl
  have f2 : salesC9.filter (fun s => s.locationId == "store-downtown") = [] := rfl
  have f3 : salesC9.filter (fun s => s.locationId == "north-branch") = [] := rfl
  have f4 : salesC9.filter (fun s => s.locationId == "city-center-store") = [] := rfl
  have v0 : calculateDemandVelocity "c9" [] nowW 30 = 0 := rfl
  have hpid : pC9.id = "c9" := rfl
  simp only [locStatsFor, warehouseIds, List.map_cons, List.map_nil, hpid,
    e1, e2, e3, e4, f1, f2, f3, f4, v0, velC9]
  norm_num [calculateInventoryCover]

/-- `pC9` was sold at `nowW`, so it is not dead stock then. -/
lemma deadC9 : detectDeadStock pC9 salesC9 nowW 90 = false := by
  have hany : ([⟨"c9", (30 : ℚ)⟩] : List SaleItem).any (fun i => i.id == "c9") = true := rfl
  rw [detectDeadStock]
  norm_num [salesC9, pC9, nowW, msPerDay, totalStock, hany, decide_eq_true_eq]

/-- The sample product `pC9` yields exactly one insight: the reorder one. -/
lemma evalGenC9 : generateStrategicInsights [pC9] salesC9 nowW
    = [mkReorderInsight pC9 1 2] := by
  have htransfer : transferInsightsFor pC9 salesC9 nowW = [] := by
    rw [transferInsightsFor, locStatsC9]
    norm_num [List.filter_cons, decide_eq_true_eq]
  have hdead : deadStockInsightFor pC9 salesC9 nowW = none := by
    rw [deadStockInsightFor, deadC9]
    simp
  have hreorder : reorderInsightFor pC9 salesC9 nowW = some (mkReorderInsight pC9 1 2) := by
    rw [reorderInsightFor]
    have hpid : pC9.id = "c9" := rfl
    rw [hpid, velC9]
    norm_num [totalStock, pC9, calculateInventoryCover]
  rw [generateStrategicInsights, findTransferOpportunities]
  simp only [List.map_cons, List.map_nil, List.flatten, htransfer, hdead, hreorder,
    List.filterMap_cons, List.filterMap_nil]
  rfl

/-- Unpacking one accepted transfer candidate: the stock, quantity and
gain-versus-cost guards all held and the insight is the pushed record. -/
lemma transferCandidate_eq_some {p : Product} {source target : LocStat}
    {i : StrategicInsight} (h : transferCandidate p source target = some i) :
    0 < transferQtyFor source target ∧
      transferCost (transferQtyFor source target)
        < estimatedGain p (transferQtyFor source target) ∧
      i = mkTransferInsight p source target (transferQtyFor source target) := by
  unfold transferCandidate at h
  split_ifs at h with h1 h2 h3
  exact ⟨h2, h3, (Option.some_inj.mp h).symm⟩

/-- Every insight in `transferInsightsFor p` is an accepted candidate of some
source/target pair. -/
lemma mem_transferInsightsFor {p : Product} {sales : List Sale} {now : ℚ}
    {i : StrategicInsight} (hi : i ∈ transferInsightsFor p sales now) :
    ∃ source target : LocStat, ∃ qty : ℤ,
      0 < qty ∧ transferCost qty < estimatedGain p qty ∧
      i = mkTransferInsight p source target qty := by
  simp only [transferInsightsFor, List.mem_flatten, List.mem_map] at hi
  obtain ⟨l, ⟨source, hsrc, rfl⟩, hil⟩ := hi
  rw [List.mem_filterMap] at hil
  obtain ⟨target, htgt, hc⟩ := hil
  obtain ⟨hq, hg, rfl⟩ := transferCandidate_eq_some hc
  exact ⟨source, target, transferQtyFor source target, hq, hg, rfl⟩

/-- Every transfer insight arises from some product of the input list. -/
lemma mem_findTransferOpportunities {products : List Product}
    {sales : List Sale} {now : ℚ} {i : StrategicInsight}
    (hi : i ∈ findTransferOpportunities products sales now) :
    ∃ p ∈ products, ∃ source target : LocStat, ∃ qty : ℤ,
      0 < qty ∧ transferCost qty < estimatedGain p qty ∧
      i = mkTransferInsight p source target qty := by
  simp only [findTransferOpportunities, List.mem_flatten, List.mem_map] at hi
  obtain ⟨l, ⟨p, hp, rfl⟩, hil⟩ := hi
  exact ⟨p, hp, mem_transferInsightsFor hil⟩

/-- C1: every insight emitted by the transfer opportunity finder records a
transfer quantity whose estimated gain `(price − cost) × qty` (with absent
cost/price defaulted to 0) strictly exceeds the transfer cost `50 + 2 × qty`;
no emitted transfer insight has `estimatedGain ≤ transferCost`. -/
theorem c1_transfer_gain_exceeds_cost (products : List Product)
    (sales : List Sale) (now : ℚ) (i : StrategicInsight)
    (hi : i ∈ findTransferOpportunities products sales now) :
    ∃ p ∈ products, ∃ fromLoc toLoc : String, ∃ qty : ℤ,
      i.metadata = some (InsightMetadata.transfer p.id fromLoc toLoc qty) ∧
      transferCost qty < estimatedGain p qty := by
  obtain ⟨p, hp, source, target, qty, _, hg, rfl⟩ := mem_findTransferOpportunities hi
  exact ⟨p, hp, source.locId, target.locId, qty, rfl, hg⟩

/-- C1 witness: the sample data emits exactly one transfer insight and the
theorem applies to it. -/
theorem c1_transfer_gain_witness :
    ∃ p ∈ [pW], ∃ fromLoc toLoc : String, ∃ qty : ℤ,
      insightW.metadata = some (InsightMetadata.transfer p.id fromLoc toLoc qty) ∧
      transferCost qty < estimatedGain p qty :=
  c1_transfer_gain_exceeds_cost [pW] salesW nowW insightW
    (by rw [evalTransferW]; exact List.mem_singleton_self insightW)

/-- A flagged dead-stock insight is the pushed liquidation record. -/
lemma deadStockInsightFor_eq_some {p : Product} {sales : List Sale} {now : ℚ}
    {i : StrategicInsight} (h : deadStockInsightFor p sales now = some i) :
    i = mkDeadStockInsight p := by
  unfold deadStockInsightFor at h
  split_ifs at h
  exact (Option.some_inj.mp h).symm

/-- A flagged reorder insight is the pushed reorder record at the overall
velocity and cover of its product. -/
lemma reorderInsightFor_eq_some {p : Product} {sales : List Sale} {now : ℚ}
    {i : StrategicInsight} (h : reorderInsightFor p sales now = some i) :
    i = mkReorderInsight p (calculateDemandVelocity p.id sales now 30)
      (calculateInventoryCover (totalStock p)
        (calculateDemandVelocity p.id sales now 30)) := by
  simp only [reorderInsightFor] at h
  split_ifs at h
  exact (Option.some_inj.mp h).symm

/-- Inserting an insight whose priority dominates a list puts it in front. -/
lemma orderedInsert_insight_cons {x : StrategicInsight}
    {L : List StrategicInsight}
    (h : ∀ y ∈ L, priorityMap y.type ≤ priorityMap x.type) :
    List.orderedInsert insightLE x L = x :: L := by
  cases L with
  | nil => rfl
  | cons y l =>
    exact List.orderedInsert_of_le insightLE l (h y (List.mem_cons_self y l))

/-- Inserting an insight of strictly lower priority than a prefix skips the
prefix. -/
lemma orderedInsert_insight_append {x : StrategicInsight}
    {P : List StrategicInsight} (Q : List StrategicInsight)
    (h : ∀ y ∈ P, priorityMap x.type < priorityMap y.type) :
    List.orderedInsert insightLE x (P ++ Q)
      = P ++ List.orderedInsert insightLE x Q := by
  induction P with
  | nil => rfl
  | cons y P ih =>
    have hy := h y (List.mem_cons_self y P)
    rw [List.cons_append, List.orderedInsert,
      if_neg (show ¬ insightLE x y from not_le.mpr hy),
      ih (fun z hz => h z (List.mem_cons_of_mem y hz)), List.cons_append]

/-- Sorting a priority-homogeneous list of insights changes nothing. -/
lemma insertionSort_insight_homog (C : List StrategicInsight) (pr : ℕ)
    (hC : ∀ c ∈ C, priorityMap c.type = pr) :
    List.insertionSort insightLE C = C := by
  induction C with
  | nil => rfl
  | cons c t ih =>
    rw [List.insertionSort, ih (fun y hy => hC y (List.mem_cons_of_mem c hy)),
      orderedInsert_insight_cons (fun y hy => ?_)]
    rw [hC y (List.mem_cons_of_mem c hy), hC c (List.mem_cons_self c t)]

/-- Stable sorting of a priority-1 block followed by a priority-3 block swaps
the two blocks. -/
lemma insertionSort_insight_two (B C : List StrategicInsight)
    (hB : ∀ b ∈ B, priorityMap b.type = 1)
    (hC : ∀ c ∈ C, priorityMap c.type = 3) :
    List.insertionSort insightLE (B ++ C) = C ++ B := by
  induction B with
  | nil => simpa using insertionSort_insight_homog C 3 hC
  | cons b B ih =>
    rw [List.cons_append, List.insertionSort,
      ih (fun y hy => hB y (List.mem_cons_of_mem b hy)),
      orderedInsert_insight_append B (fun y hy => ?_),
      orderedInsert_insight_cons (fun y hy => ?_)]
    · rw [hB y (List.mem_cons_of_mem b hy), hB b (List.mem_cons_self b B)]
    · rw [hB b (List.mem_cons_self b B), hC y hy]
      norm_num

/-- Stable sorting of priority blocks 2, 1, 3 yields blocks 3, 2, 1 with each
block's internal order untouched. -/
lemma insertionSort_insight_blocks (A B C : List StrategicInsight)
    (hA : ∀ a ∈ A, priorityMap a.type = 2)
    (hB : ∀ b ∈ B, priorityMap b.type = 1)
    (hC : ∀ c ∈ C, priorityMap c.type = 3) :
    List.insertionSort insightLE (A ++ (B ++ C)) = C ++ (A ++ B) := by
  induction A with
  | nil => simpa using insertionSort_insight_two B C hB hC
  | cons a A ih =>
    rw [List.cons_append, List.insertionSort,
      ih (fun y hy => hA y (List.mem_cons_of_mem a hy)),
      orderedInsert_insight_append (A ++ B) (fun y hy => ?_),
      orderedInsert_insight_cons (fun y hy => ?_), List.cons_append]
    · rcases List.mem_append.mp hy with hy' | hy'
      · rw [hA y (List.mem_cons_of_mem a hy'), hA a (List.mem_cons_self a A)]
      · rw [hB y hy', hA a (List.mem_cons_self a A)]
        norm_num
    · rw [hA a (List.mem_cons_self a A), hC y hy]
      norm_num

/-- All transfer insights carry priority 2 (Profit Optimization). -/
lemma transfer_block_prio (products : List Product) (sales : List Sale)
    (now : ℚ) :
    ∀ i ∈ findTransferOpportunities products sales now,
      priorityMap i.type = 2 := by
  intro i hi
  obtain ⟨p, _, s, t, q, _, _, rfl⟩ := mem_findTransferOpportunities hi
  rfl

/-- All dead-stock insights carry priority 1 (Cash Flow). -/
lemma dead_block_prio (products : List Product) (sales : List Sale) (now : ℚ) :
    ∀ i ∈ products.filterMap (fun p => deadStockInsightFor p sales now),
      priorityMap i.type = 1 := by
  intro i hi
  rw [List.mem_filterMap] at hi
  obtain ⟨p, _, hp⟩ := hi
  rw [deadStockInsightFor_eq_some hp]
  rfl

/-- All reorder insights carry priority 3 (Risk Mitigation). -/
lemma reorder_block_prio (products : List Product) (sales : List Sale)
    (now : ℚ) :
    ∀ i ∈ products.filterMap (fun p => reorderInsightFor p sales now),
      priorityMap i.type = 3 := by
  intro i hi
  rw [List.mem_filterMap] at hi
  obtain ⟨p, _, hp⟩ := hi
  rw [reorderInsightFor_eq_some hp]
  rfl

/-- Closed form of the aggregator: reorder block, then transfer block, then
dead-stock block, truncated to five. -/
lemma generateStrategicInsights_eq (products : List Product)
    (sales : List Sale) (now : ℚ) :
    generateStrategicInsights products sales now =
      (products.filterMap (fun p => reorderInsightFor p sales now)
        ++ (findTransferOpportunities products sales now
        ++ products.filterMap (fun p => deadStockInsightFor p sales now))).take 5 := by
  simp only [generateStrategicInsights]
  rw [List.append_assoc]
  rw [insertionSort_insight_blocks _ _ _ (transfer_block_prio products sales now)
    (dead_block_prio products sales now) (reorder_block_prio products sales now)]

/-- C2: the aggregator's output has at most five entries, is sorted
descending by the fixed category priority, and equals the stable arrangement
that keeps the insertion order (transfer, dead stock, reorder) inside each
category: reorder block first, then transfer block, then dead-stock block. -/
theorem c2_ranked_top5 (products : List Product) (sales : List Sale)
    (now : ℚ) :
    (generateStrategicInsights products sales now).length ≤ 5 ∧
    (generateStrategicInsights products sales now).Pairwise insightLE ∧
    generateStrategicInsights products sales now =
      (products.filterMap (fun p => reorderInsightFor p sales now)
        ++ (findTransferOpportunities products sales now
        ++ products.filterMap (fun p => deadStockInsightFor p sales now))).take 5 := by
  refine ⟨?_, ?_, generateStrategicInsights_eq products sales now⟩
  · simp only [generateStrategicInsights]
    exact List.length_take_le 5 _
  · simp only [generateStrategicInsights]
    exact List.Pairwise.sublist (List.take_sublist 5 _)
      (List.sorted_insertionSort insightLE _)

/-- C10: every insight the aggregator emits is a Profit-Optimization TRANSFER,
a Cash-Flow LIQUIDATE or a Risk-Mitigation REORDER; no emitted insight has
type Growth or action PRICE_ADJUST. -/
theorem c10_no_growth_no_price_adjust (products : List Product)
    (sales : List Sale) (now : ℚ) (i : StrategicInsight)
    (hi : i ∈ generateStrategicInsights products sales now) :
    ((i.type = InsightType.profitOptimization ∧ i.actionType = ActionType.TRANSFER) ∨
      (i.type = InsightType.cashFlow ∧ i.actionType = ActionType.LIQUIDATE) ∨
      (i.type = InsightType.riskMitigation ∧ i.actionType = ActionType.REORDER)) ∧
    i.type ≠ InsightType.growth ∧ i.actionType ≠ ActionType.PRICE_ADJUST := by
  simp only [generateStrategicInsights] at hi
  have hi' := List.mem_of_mem_take hi
  rw [List.mem_insertionSort, List.append_assoc, List.mem_append] at hi'
  rcases hi' with h | h
  · obtain ⟨p, _, s, t, q, _, _, rfl⟩ := mem_findTransferOpportunities h
    refine ⟨Or.inl ⟨rfl, rfl⟩, ?_, ?_⟩ <;> simp [mkTransferInsight]
  · rw [List.mem_append] at h
    rcases h with h | h
    · rw [List.mem_filterMap] at h
      obtain ⟨p, _, hp⟩ := h
      rw [deadStockInsightFor_eq_some hp]
      refine ⟨Or.inr (Or.inl ⟨rfl, rfl⟩), ?_, ?_⟩ <;> simp [mkDeadStockInsight]
    · rw [List.mem_filterMap] at h
      obtain ⟨p, _, hp⟩ := h
      rw [reorderInsightFor_eq_some hp]
      refine ⟨Or.inr (Or.inr ⟨rfl, rfl⟩), ?_, ?_⟩ <;> simp [mkReorderInsight]

/-- C10 witness: the theorem applied to the single insight emitted for the
sample product `pC9`. -/
theorem c10_no_growth_witness :
    ((insightC10.type = InsightType.profitOptimization ∧
        insightC10.actionType = ActionType.TRANSFER) ∨
      (insightC10.type = InsightType.cashFlow ∧
        insightC10.actionType = ActionType.LIQUIDATE) ∨
      (insightC10.type = InsightType.riskMitigation ∧
        insightC10.actionType = ActionType.REORDER)) ∧
    insightC10.type ≠ InsightType.growth ∧
    insightC10.actionType ≠ ActionType.PRICE_ADJUST :=
  c10_no_growth_no_price_adjust [pC9] salesC9 nowW insightC10
    (by rw [show insightC10 = mkReorderInsight pC9 1 2 from by rw [insightC10, evalGenC9]; rfl,
      evalGenC9]; exact List.mem_singleton_self _)

/-- C6: in every forecast the engine returns, the trend is New exactly by the
source's rule — zero previous-window quantity with positive current-window
quantity takes priority, else the ±20 growth-rate thresholds apply. -/
theorem c6_trend_classification (products : List Product) (sales : List Sale)
    (now : ℚ) (f : ProductForecast)
    (hf : f ∈ generateProductForecasts products sales now) :
    f.trend = (if f.previousMonthlySales = 0 ∧ 0 < f.currentMonthlySales
      then Trend.freshlyNew
      else if 20 ≤ f.growthRate then Trend.highGrowth
      else if f.growthRate ≤ -20 then Trend.declining
      else Trend.stable) := by
  rw [generateProductForecasts, List.mem_insertionSort, List.mem_map] at hf
  obtain ⟨p, _, rfl⟩ := hf
  rfl

/-- C6 witness: the theorem applied to the forecast of the sample product. -/
theorem c6_trend_witness :
    fW.trend = (if fW.previousMonthlySales = 0 ∧ 0 < fW.currentMonthlySales
      then Trend.freshlyNew
      else if 20 ≤ fW.growthRate then Trend.highGrowth
      else if fW.growthRate ≤ -20 then Trend.declining
      else Trend.stable) :=
  c6_trend_classification [pW] salesW nowW fW
    (by rw [show generateProductForecasts [pW] salesW nowW = [fW] from rfl]
        exact List.mem_singleton_self fW)

/-- C7: every returned forecast has
`forecastedSales = ceil(currentWindowQty × momentumFactor trend)` with the
fixed momentum factors, and the returned list is sorted descending by
forecasted volume. -/
theorem c7_forecast_value_and_order (products : List Product)
    (sales : List Sale) (now : ℚ) :
    (∀ f ∈ generateProductForecasts products sales now,
      f.forecastedSales = Int.ceil (f.currentMonthlySales * momentumFactor f.trend)) ∧
    (generateProductForecasts products sales now).Pairwise forecastLE := by
  constructor
  · intro f hf
    rw [generateProductForecasts, List.mem_insertionSort, List.mem_map] at hf
    obtain ⟨p, _, rfl⟩ := hf
    rfl
  · exact List.sorted_insertionSort forecastLE _

/-- C7 witness: the forecast value equation at the sample forecast. -/
theorem c7_forecast_witness :
    fW.forecastedSales = Int.ceil (fW.currentMonthlySales * momentumFactor fW.trend) :=
  (c7_forecast_value_and_order [pW] salesW nowW).1 fW
    (by rw [show generateProductForecasts [pW] salesW nowW = [fW] from rfl]
        exact List.mem_singleton_self fW)

/-- C9 counterexample: for the sample product with absent cost and price the
emitted reorder insight reads `Protect ~₹NaN profit`, while computing the
profit-protection estimate with the absent fields defaulted to 0 would read
`Protect ~₹0 profit`. -/
theorem c9_reorder_nan_counterexample :
    (generateStrategicInsights [pC9] salesC9 nowW).map (fun i => i.roiImpact)
        = ["Protect ~₹NaN profit"] ∧
    reorderRoiString (some (calculateDemandVelocity "c9" salesC9 nowW 30 * 14
        * (pC9.price.getD 0 - pC9.cost.getD 0))) = "Protect ~₹0 profit" ∧
    ("Protect ~₹NaN profit" : String) ≠ "Protect ~₹0 profit" := by
  refine ⟨?_, ?_, by decide⟩
  · rw [evalGenC9]
    rfl
  · rw [velC9]
    norm_num [pC9]
    rfl

/-- C9 amended: the transfer gain and the dead-stock blocked capital treat an
absent cost or price as 0 and no operation raises an error, but the reorder
insight's profit-protection estimate does not default: with either field
absent it is the JavaScript `NaN` (modelled as `none`). -/
theorem c9_cost_price_defaults (p : Product) (qty : ℤ) (v : ℚ) :
    estimatedGain p qty = (p.price.getD 0 - p.cost.getD 0) * (qty : ℚ) ∧
    capitalBlocked p = totalStock p * p.cost.getD 0 ∧
    ((p.price = none ∨ p.cost = none) → reorderProfitProtect p v = none) := by
  refine ⟨rfl, rfl, ?_⟩
  intro h
  unfold reorderProfitProtect
  rcases h with h | h
  · rw [h]
  · rw [h]
    cases p.price <;> rfl

/-- C9 witness: the amended theorem applied to the sample product with both
fields absent. -/
theorem c9_cost_price_defaults_witness :
    (pC9.price = none ∨ pC9.cost = none) ∧ reorderProfitProtect pC9 1 = none :=
  ⟨Or.inl rfl, (c9_cost_price_defaults pC9 0 1).2.2 (Or.inl rfl)⟩
